import Mathlib

/-!
Verification of the infrared remote-control subsystem of GoEV3
(`Sensors/color.go`): the debounce loops of `OnRemotePressed` and
`OnRemoteReleased`, the channel/button decoding (`parseChannel`,
`buttonID`), and the sampler loop `pollRemote`.

The Go code is embedded shallowly:
* the per-listener `pressed` map (`map[uint64]bool`) becomes a function
  `Nat → Bool` with default `false` (Go map reads are of the form
  `v, ok := pressed[k]; ok && v`, i.e. lookup-with-default-false);
* the body of the engine goroutine's `select` loop becomes a step
  function on that state returning the new state and the list of
  callback invocations `fn(c, b)` performed by that step;
* `log.Fatal` (process termination) becomes `Option.none`;
* processing a finite list of queued `RemoteSignal`s becomes a fold of
  the step function.
-/

namespace GoEV3

/-- Go: `type Button uint64`. -/
abbrev Button := Nat

/-- Go: `type Channel uint64`. -/
abbrev Channel := Nat

/-- Go: `RedUp Button = 1`. -/
def RedUp : Button := 1

/-- Go: `RedDown = 2`. -/
def RedDown : Button := 2

/-- Go: `BlueUp = 3`. -/
def BlueUp : Button := 3

/-- Go: `BlueDown = 4`. -/
def BlueDown : Button := 4

/-- Go: `Channel1 Channel = 0`. -/
def Channel1 : Channel := 0

/-- Go: `Channel2 = 1`. -/
def Channel2 : Channel := 1

/-- Go: `Channel3 = 2`. -/
def Channel3 : Channel := 2

/-- Go: `Channel4 = 3`. -/
def Channel4 : Channel := 3

/-- Go: `RemoteSignal struct { Name string; Value uint64 }`.  `Value`
always comes from `strconv.ParseUint(_, 10, 16)`, so `Nat` is faithful. -/
structure RemoteSignal where
  Name : String
  Value : Nat
deriving DecidableEq, Repr

/-- Go `parseChannel` (`color.go`): maps an attribute name to a channel;
the `default` branch calls `log.Fatal("Invalid channel")`, modelled as
`none`. -/
def parseChannel (name : String) : Option Channel :=
  match name with
  | "value0" => some Channel1
  | "value1" => some Channel2
  | "value2" => some Channel3
  | "value3" => some Channel4
  | _ => none

/-- Go `buttonID`: `uint64(c)*10 + uint64(b)`.  All operands are far
below `2^64`, so plain `Nat` arithmetic is exact. -/
def buttonID (c : Channel) (b : Button) : Nat :=
  c * 10 + b

/-- Go map assignment `m[k] = v` on the `pressed` map. -/
def update (m : Nat → Bool) (k : Nat) (v : Bool) : Nat → Bool :=
  fun x => if x = k then v else m x

/-- The fresh `pressed := map[uint64]bool{}` created by each call of
`OnRemotePressed` / `OnRemoteReleased`. -/
def emptyPressed : Nat → Bool :=
  fun _ => false

/-- The iteration domain of the Go loops
`for b := RedUp; b <= BlueDown; b++`, i.e. `[1, 2, 3, 4]`. -/
def buttonRange : List Button :=
  List.range' RedUp (BlueDown - RedUp + 1)

/-- Go (`OnRemotePressed` idle branch): the loop
`for b := RedUp; b <= BlueDown; b++ { pressed[buttonID(c, b)] = false }`. -/
def resetChannel (c : Channel) (m : Nat → Bool) : Nat → Bool :=
  buttonRange.foldl (fun mm b => update mm (buttonID c b) false) m

/-- One iteration of the body of the `select` loop of `OnRemotePressed`
on a received signal: the new `pressed` map plus the list of calls to
`fn` made by this iteration.  `none` models `log.Fatal` inside
`parseChannel`. -/
def pressedStep (m : Nat → Bool) (sig : RemoteSignal) :
    Option ((Nat → Bool) × List (Channel × Button)) :=
  match parseChannel sig.Name with
  | none => none
  | some c =>
    if sig.Value = 0 then
      some (resetChannel c m, [])
    else
      if m (buttonID c sig.Value) then
        some (m, [])
      else
        some (update m (buttonID c sig.Value) true, [(c, sig.Value)])

/-- Go (`OnRemoteReleased` idle branch): one iteration of
`for b := RedUp; b <= BlueDown; b++ { if v, ok := pressed[buttonID(c, b)]; ok && v { fn(c, b); pressed[buttonID(c, b)] = false } }`. -/
def relStep (c : Channel) (acc : (Nat → Bool) × List (Channel × Button))
    (b : Button) : (Nat → Bool) × List (Channel × Button) :=
  if acc.1 (buttonID c b) then
    (update acc.1 (buttonID c b) false, acc.2 ++ [(c, b)])
  else
    acc

/-- One iteration of the body of the `select` loop of `OnRemoteReleased`
on a received signal. -/
def releasedStep (m : Nat → Bool) (sig : RemoteSignal) :
    Option ((Nat → Bool) × List (Channel × Button)) :=
  match parseChannel sig.Name with
  | none => none
  | some c =>
    if sig.Value ≠ 0 then
      some (update m (buttonID c sig.Value) true, [])
    else
      some (buttonRange.foldl (relStep c) (m, []))

/-- The `OnRemotePressed` engine goroutine processing a finite list of
queued signals in arrival order, accumulating the callback invocations. -/
def pressedRun : (Nat → Bool) → List RemoteSignal →
    Option ((Nat → Bool) × List (Channel × Button))
  | m, [] => some (m, [])
  | m, sig :: rest =>
    (pressedStep m sig).bind (fun st =>
      (pressedRun st.1 rest).map (fun rs => (rs.1, st.2 ++ rs.2)))

/-- The `OnRemoteReleased` engine goroutine processing a finite list of
queued signals in arrival order. -/
def releasedRun : (Nat → Bool) → List RemoteSignal →
    Option ((Nat → Bool) × List (Channel × Button))
  | m, [] => some (m, [])
  | m, sig :: rest =>
    (releasedStep m sig).bind (fun st =>
      (releasedRun st.1 rest).map (fun rs => (rs.1, st.2 ++ rs.2)))

/-- Callback invocations of one pressed-mode step. -/
def pressedStepOut (m : Nat → Bool) (sig : RemoteSignal) :
    Option (List (Channel × Button)) :=
  (pressedStep m sig).map Prod.snd

/-- Callback invocations of one released-mode step. -/
def releasedStepOut (m : Nat → Bool) (sig : RemoteSignal) :
    Option (List (Channel × Button)) :=
  (releasedStep m sig).map Prod.snd

/-- Callback invocations of a pressed-mode run. -/
def pressedRunOut (m : Nat → Bool) (sigs : List RemoteSignal) :
    Option (List (Channel × Button)) :=
  (pressedRun m sigs).map Prod.snd

/-- Callback invocations of a released-mode run. -/
def releasedRunOut (m : Nat → Bool) (sigs : List RemoteSignal) :
    Option (List (Channel × Button)) :=
  (releasedRun m sigs).map Prod.snd

/-- Specification-side counter (refinement target), following the
spec's words: "a release callback fires exactly once per (press,
subsequent idle) pair".  `held` records whether button `b` has been
pressed on this channel since the last idle sample; an idle sample
contributes one firing exactly when `held`. -/
def specReleaseCount (b : Nat) : Bool → List Nat → Nat
  | _, [] => 0
  | held, v :: rest =>
    if v = 0 then
      (if held then 1 else 0) + specReleaseCount b false rest
    else
      specReleaseCount b (if v = b then true else held) rest

/-- The `select` loop of the `OnRemotePressed` engine goroutine, with
the two sources made explicit: `stopReady` says whether a value is
pending on the `stop` channel, `queue` is the content of the buffered
signal channel `s`.  Per the Go language specification, when several
`select` cases can proceed one is chosen by a uniform pseudo-random
draw; `sched` records those draws (`true` = take `<-stop`, `false` =
take `<-s`) for the iterations where both sources are ready.  Taking
`<-stop` returns from the goroutine; an empty queue with no pending
stop blocks, so no further callback fires either way.  The result is
the list of callback invocations (`none` models `log.Fatal`). -/
def engineRunPressed : List Bool → (Nat → Bool) → Bool → List RemoteSignal →
    Option (List (Channel × Button))
  | _, _, _, [] => some []
  | sched, m, false, sig :: q =>
    (pressedStep m sig).bind (fun st =>
      (engineRunPressed sched st.1 false q).map (fun rest => st.2 ++ rest))
  | [], _, true, _ :: _ => some []
  | true :: _, _, true, _ :: _ => some []
  | false :: sch, m, true, sig :: q =>
    (pressedStep m sig).bind (fun st =>
      (engineRunPressed sch st.1 true q).map (fun rest => st.2 ++ rest))

/-- Go `strings.Trim(s, cutset)`: remove leading and trailing
characters of `cutset`. -/
def goTrim (cut : List Char) (s : String) : String :=
  String.mk
    (((s.data.dropWhile (fun ch => ch ∈ cut)).reverse.dropWhile
      (fun ch => ch ∈ cut)).reverse)

/-- Go `strconv.ParseUint(s, 10, 16)`: a non-empty all-digit decimal
string whose value is representable in 16 bits; no sign prefix is
permitted.  `none` models a non-nil error. -/
def parseUint16 (s : String) : Option Nat :=
  if s.data = [] then none
  else if s.data.all (fun ch => ch.isDigit) then
    if s.data.foldl (fun acc ch => acc * 10 + (ch.toNat - 48)) 0 < 2 ^ 16 then
      some (s.data.foldl (fun acc ch => acc * 10 + (ch.toNat - 48)) 0)
    else none
  else none

/-- One iteration of the `pollRemote` sampler goroutine after the stop
check: read the file (`none` models a read error, which is
`log.Fatal`), trim `" \n"`, parse as a 16-bit unsigned integer
(`log.Fatal` on error, modelled as `none`). -/
def sampleTick (readResult : Option String) : Option Nat :=
  match readResult with
  | none => none
  | some data => parseUint16 (goTrim [' ', '\n'] data)

/-- The value emitted onto the signal channel by one successful sampler
tick: exactly one `RemoteSignal{name, b}`. -/
def samplerTickEmit (name : String) (readResult : Option String) :
    Option (List RemoteSignal) :=
  (sampleTick readResult).map (fun v => [⟨name, v⟩])

/-- The `pollRemote` sampler goroutine over a finite schedule: before
each tick it checks the stop channel without blocking (`stops` head
`true` means a stop value was received) and returns if stopped;
otherwise it performs one tick and emits its parsed value. -/
def samplerRun : List Bool → List (Option String) → Option (List Nat)
  | _, [] => some []
  | [], _ => some []
  | st :: sts, rd :: rds =>
    if st then some []
    else
      (sampleTick rd).bind (fun v =>
        (samplerRun sts rds).map (fun rest => v :: rest))

/-- The capacity of the shared signal stream:
`s := make(chan RemoteSignal, 50)`. -/
def remoteQueueCapacity : Nat := 50

/-- Sending on the buffered channel `s` (Go channel semantics): if the
buffer has room the value is appended at the tail, otherwise the sender
blocks (`none`); a send never drops a sample. -/
def queueSend (buf : List RemoteSignal) (x : RemoteSignal) :
    Option (List RemoteSignal) :=
  if buf.length < remoteQueueCapacity then some (buf ++ [x]) else none

/-- Receiving from the buffered channel `s`: the oldest element (head)
is delivered first; an empty buffer blocks (`none`). -/
def queueRecv (buf : List RemoteSignal) :
    Option (RemoteSignal × List RemoteSignal) :=
  match buf with
  | [] => none
  | x :: rest => some (x, rest)

/-- Combines the outcomes of two independent engine runs; `none` if
either hit `log.Fatal` (which terminates the whole process). -/
def combineRuns (a b : Option (List (Channel × Button))) :
    Option (List (Channel × Button) × List (Channel × Button)) :=
  match a, b with
  | some o1, some o2 => some (o1, o2)
  | _, _ => none

/-- The select-loop body of one registration's engine goroutine:
`OnRemotePressed`'s when `mode = false`, `OnRemoteReleased`'s when
`mode = true` (the two functions differ only in this body). -/
def modeStep (mode : Bool) (m : Nat → Bool) (sig : RemoteSignal) :
    Option ((Nat → Bool) × List (Channel × Button)) :=
  if mode then releasedStep m sig else pressedStep m sig

/-- One registration's engine goroutine, of either mode, processing a
finite list of queued signals in arrival order. -/
def modeRun (mode : Bool) : (Nat → Bool) → List RemoteSignal →
    Option ((Nat → Bool) × List (Channel × Button))
  | m, [] => some (m, [])
  | m, sig :: rest =>
    (modeStep mode m sig).bind (fun st =>
      (modeRun mode st.1 rest).map (fun rs => (rs.1, st.2 ++ rs.2)))

/-- Callback invocations of one engine's run, of either mode. -/
def modeRunOut (mode : Bool) (m : Nat → Bool) (sigs : List RemoteSignal) :
    Option (List (Channel × Button)) :=
  (modeRun mode m sigs).map Prod.snd

/-- Two registrations (each `OnRemotePressed` or `OnRemoteReleased`,
chosen by `mode1` / `mode2`) running concurrently: each call creates
its own `pressed` map and its own signal channel, so the joint
behaviour is an interleaving of two independent engines.  `sched`
chooses which engine consumes its next queued signal; when the
schedule runs out the remaining signals are processed engine 1 first. -/
def twoEngineRun (mode1 mode2 : Bool) : List Bool → (Nat → Bool) → (Nat → Bool) →
    List RemoteSignal → List RemoteSignal →
    Option (List (Channel × Button) × List (Channel × Button))
  | [], m1, m2, q1, q2 => combineRuns (modeRunOut mode1 m1 q1) (modeRunOut mode2 m2 q2)
  | true :: sch, m1, m2, [], q2 => twoEngineRun mode1 mode2 sch m1 m2 [] q2
  | true :: sch, m1, m2, sig :: q1, q2 =>
    (modeStep mode1 m1 sig).bind (fun st =>
      (twoEngineRun mode1 mode2 sch st.1 m2 q1 q2).map (fun p => (st.2 ++ p.1, p.2)))
  | false :: sch, m1, m2, q1, [] => twoEngineRun mode1 mode2 sch m1 m2 q1 []
  | false :: sch, m1, m2, q1, sig :: q2 =>
    (modeStep mode2 m2 sig).bind (fun st =>
      (twoEngineRun mode1 mode2 sch m1 st.1 q1 q2).map (fun p => (p.1, st.2 ++ p.2)))

theorem update_apply (m : Nat → Bool) (k : Nat) (v : Bool) (x : Nat) :
    update m k v x = if x = k then v else m x := rfl

theorem buttonRange_eq : buttonRange = [1, 2, 3, 4] := by decide

theorem buttonRange_nodup : buttonRange.Nodup := by decide

/-- The idle-branch reset loop of `OnRemotePressed`, pointwise: the four
keys of the channel become `false`, every other key is unchanged. -/
theorem resetChannel_apply (c : Channel) (m : Nat → Bool) (k : Nat) :
    resetChannel c m k =
      if k = buttonID c RedUp ∨ k = buttonID c RedDown ∨
         k = buttonID c BlueUp ∨ k = buttonID c BlueDown
      then false else m k := by
  have hbr : buttonRange = [1, 2, 3, 4] := buttonRange_eq
  simp only [resetChannel, hbr, List.foldl_cons, List.foldl_nil, buttonID,
    RedUp, RedDown, BlueUp, BlueDown, update]
  by_cases h1 : k = c * 10 + 1 <;> by_cases h2 : k = c * 10 + 2 <;>
    by_cases h3 : k = c * 10 + 3 <;> by_cases h4 : k = c * 10 + 4 <;>
    simp [h1, h2, h3, h4]

/-- State component of the idle-branch release loop of
`OnRemoteReleased`: every key of the iterated buttons ends up `false`,
every other key is unchanged. -/
theorem relFold_fst (c : Channel) :
    ∀ (l : List Button) (m : Nat → Bool) (out : List (Channel × Button)) (k : Nat),
      (l.foldl (relStep c) (m, out)).1 k
        = if k ∈ l.map (buttonID c) then false else m k := by
  intro l
  induction l with
  | nil => intro m out k; simp
  | cons bb l2 ih =>
    intro m out k
    rw [List.foldl_cons]
    by_cases hm : m (buttonID c bb) = true
    · rw [show relStep c (m, out) bb
          = (update m (buttonID c bb) false, out ++ [(c, bb)]) from by
        simp [relStep, hm]]
      rw [ih]
      by_cases hk : k ∈ l2.map (buttonID c)
      · simp [hk]
      · by_cases hkb : k = buttonID c bb
        · simp [hk, hkb, update]
        · simp [hk, hkb, update]
    · rw [Bool.not_eq_true] at hm
      rw [show relStep c (m, out) bb = (m, out) from by simp [relStep, hm]]
      rw [ih]
      by_cases hk : k ∈ l2.map (buttonID c)
      · simp [hk]
      · by_cases hkb : k = buttonID c bb
        · subst hkb
          simp [hk, hm]
        · simp [hk, hkb]

/-- Emission component of the idle-branch release loop of
`OnRemoteReleased`: it fires `(c, bb)` exactly for the iterated buttons
`bb` whose key is currently held, in iteration order. -/
theorem relFold_snd (c : Channel) :
    ∀ (l : List Button) (m : Nat → Bool) (out : List (Channel × Button)),
      l.Nodup →
      (l.foldl (relStep c) (m, out)).2
        = out ++ (l.filter (fun bb => m (buttonID c bb))).map (fun bb => (c, bb)) := by
  intro l
  induction l with
  | nil => intro m out _; simp
  | cons bb l2 ih =>
    intro m out hnd
    rw [List.nodup_cons] at hnd
    obtain ⟨hbb, hnd2⟩ := hnd
    rw [List.foldl_cons]
    by_cases hm : m (buttonID c bb) = true
    · rw [show relStep c (m, out) bb
          = (update m (buttonID c bb) false, out ++ [(c, bb)]) from by
        simp [relStep, hm]]
      rw [ih _ _ hnd2]
      have hfilt : l2.filter (fun x => update m (buttonID c bb) false (buttonID c x))
          = l2.filter (fun x => m (buttonID c x)) := by
        apply List.filter_congr
        intro x hx
        have hxbb : x ≠ bb := fun he => hbb (he ▸ hx)
        have hne : buttonID c x ≠ buttonID c bb := by
          intro he
          simp only [buttonID] at he
          exact hxbb (Nat.add_left_cancel he)
        simp [update, hne]
      rw [hfilt]
      simp [List.filter_cons, hm]
    · rw [Bool.not_eq_true] at hm
      rw [show relStep c (m, out) bb = (m, out) from by simp [relStep, hm]]
      rw [ih _ _ hnd2]
      simp [List.filter_cons, hm]

/-- Counting one pair `(c, b)` in the emission of a release loop over
distinct buttons: `1` exactly when `b` is among them and currently held. -/
theorem count_pair_filter_map (c : Channel) (b : Nat) :
    ∀ (l : List Nat) (p : Nat → Bool), l.Nodup →
      ((l.filter p).map (fun bb => ((c, bb) : Channel × Button))).count (c, b)
        = if b ∈ l ∧ p b = true then 1 else 0 := by
  intro l
  induction l with
  | nil => intro p _; simp
  | cons x l2 ih =>
    intro p hnd
    rw [List.nodup_cons] at hnd
    obtain ⟨hx, hnd2⟩ := hnd
    by_cases hp : p x = true
    · rw [List.filter_cons_of_pos hp, List.map_cons, List.count_cons]
      by_cases hxb : x = b
      · subst hxb
        rw [ih _ hnd2]
        simp [hx, hp]
      · rw [ih _ hnd2]
        have hbeq : (((c, x) : Channel × Button) == (c, b)) = false := by
          simp [hxb]
        rw [hbeq]
        have hbx2 : ¬ b = x := fun h => hxb h.symm
        simp [List.mem_cons, hbx2]
    · rw [List.filter_cons_of_neg (by simp [hp]), ih _ hnd2]
      simp only [List.mem_cons]
      by_cases hbx : b = x
      · subst hbx
        simp [hp, hx]
      · simp [hbx]

theorem pressedRun_cons (m : Nat → Bool) (sig : RemoteSignal)
    (rest : List RemoteSignal) :
    pressedRun m (sig :: rest)
      = (pressedStep m sig).bind (fun st =>
          (pressedRun st.1 rest).map (fun rs => (rs.1, st.2 ++ rs.2))) := rfl

theorem releasedRun_cons (m : Nat → Bool) (sig : RemoteSignal)
    (rest : List RemoteSignal) :
    releasedRun m (sig :: rest)
      = (releasedStep m sig).bind (fun st =>
          (releasedRun st.1 rest).map (fun rs => (rs.1, st.2 ++ rs.2))) := rfl

/-- A non-idle pressed-mode step never clears a held key. -/
theorem pressedStep_nonzero_preserve (m : Nat → Bool) (sig : RemoteSignal)
    (st : (Nat → Bool) × List (Channel × Button)) (k : Nat)
    (hv : sig.Value ≠ 0) (hstep : pressedStep m sig = some st)
    (hk : m k = true) : st.1 k = true := by
  cases hpc : parseChannel sig.Name with
  | none => simp [pressedStep, hpc] at hstep
  | some c =>
    simp only [pressedStep, hpc, if_neg hv] at hstep
    by_cases hm : m (buttonID c sig.Value) = true
    · rw [if_pos hm] at hstep
      rw [← Option.some.inj hstep]
      exact hk
    · rw [if_neg hm] at hstep
      rw [← Option.some.inj hstep]
      simp [update, hk]

/-- Destructuring a successful pressed-mode run on a cons cell. -/
theorem pressedRun_cons_some (m m2 : Nat → Bool) (sig : RemoteSignal)
    (rest : List RemoteSignal) (out : List (Channel × Button))
    (hrun : pressedRun m (sig :: rest) = some (m2, out)) :
    ∃ st rs, pressedStep m sig = some st ∧ pressedRun st.1 rest = some rs ∧
      rs.1 = m2 ∧ out = st.2 ++ rs.2 := by
  rw [pressedRun_cons] at hrun
  cases hstep : pressedStep m sig with
  | none => rw [hstep] at hrun; simp at hrun
  | some st =>
    rw [hstep, Option.some_bind] at hrun
    cases hrest : pressedRun st.1 rest with
    | none => rw [hrest] at hrun; simp at hrun
    | some rs =>
      rw [hrest] at hrun
      simp at hrun
      exact ⟨st, rs, rfl, hrest, hrun.1, hrun.2.symm⟩

/-- Destructuring a successful released-mode run on a cons cell. -/
theorem releasedRun_cons_some (m m2 : Nat → Bool) (sig : RemoteSignal)
    (rest : List RemoteSignal) (out : List (Channel × Button))
    (hrun : releasedRun m (sig :: rest) = some (m2, out)) :
    ∃ st rs, releasedStep m sig = some st ∧ releasedRun st.1 rest = some rs ∧
      rs.1 = m2 ∧ out = st.2 ++ rs.2 := by
  rw [releasedRun_cons] at hrun
  cases hstep : releasedStep m sig with
  | none => rw [hstep] at hrun; simp at hrun
  | some st =>
    rw [hstep, Option.some_bind] at hrun
    cases hrest : releasedRun st.1 rest with
    | none => rw [hrest] at hrun; simp at hrun
    | some rs =>
      rw [hrest] at hrun
      simp at hrun
      exact ⟨st, rs, rfl, hrest, hrun.1, hrun.2.symm⟩

/-- Over idle-free input, a pressed-mode run never clears a held key. -/
theorem pressedRun_preserve_true (k : Nat) :
    ∀ (sigs : List RemoteSignal) (m m2 : Nat → Bool)
      (out : List (Channel × Button)),
      (∀ sig ∈ sigs, sig.Value ≠ 0) →
      pressedRun m sigs = some (m2, out) → m k = true → m2 k = true := by
  intro sigs
  induction sigs with
  | nil =>
    intro m m2 out _ hrun hk
    simp [pressedRun] at hrun
    rw [← hrun.1]
    exact hk
  | cons sig rest ih =>
    intro m m2 out hall hrun hk
    obtain ⟨st, rs, hstep, hrest, hm2, _⟩ := pressedRun_cons_some _ _ _ _ _ hrun
    have hst : st.1 k = true :=
      pressedStep_nonzero_preserve m sig st k (hall sig (by simp)) hstep hk
    have := ih st.1 rs.1 rs.2 (fun s hs => hall s (by simp [hs]))
      (by rw [hrest]) hst
    rw [← hm2]
    exact this

/-- Over an idle-free single-channel input, a pressed-mode run never
fires a button whose key is already held. -/
theorem pressedRun_no_fire_held (nm : String) (c : Channel) (b : Nat) :
    ∀ (sigs : List RemoteSignal) (m m2 : Nat → Bool)
      (out : List (Channel × Button)),
      parseChannel nm = some c →
      (∀ sig ∈ sigs, sig.Name = nm ∧ sig.Value ≠ 0) →
      m (buttonID c b) = true →
      pressedRun m sigs = some (m2, out) → (c, b) ∉ out := by
  intro sigs
  induction sigs with
  | nil =>
    intro m m2 out _ _ _ hrun
    simp [pressedRun] at hrun
    rw [hrun.2]
    simp
  | cons sig rest ih =>
    intro m m2 out hc hall hheld hrun
    obtain ⟨st, rs, hstep, hrest, _, hout⟩ := pressedRun_cons_some _ _ _ _ _ hrun
    obtain ⟨hname, hv⟩ := hall sig (by simp)
    have hpc : parseChannel sig.Name = some c := by rw [hname]; exact hc
    have hst : st.1 (buttonID c b) = true :=
      pressedStep_nonzero_preserve m sig st (buttonID c b) hv hstep hheld
    have htail : (c, b) ∉ rs.2 :=
      ih st.1 rs.1 rs.2 hc (fun s hs => hall s (by simp [hs])) hst (by rw [hrest])
    rw [hout]
    simp only [pressedStep, hpc, if_neg hv] at hstep
    by_cases hm : m (buttonID c sig.Value) = true
    · rw [if_pos hm] at hstep
      have hst2 : st = (m, []) := (Option.some.inj hstep).symm
      rw [hst2]
      simpa using htail
    · rw [if_neg hm] at hstep
      have hst2 : st = (update m (buttonID c sig.Value) true, [(c, sig.Value)]) :=
        (Option.some.inj hstep).symm
      have hvb : sig.Value ≠ b := by
        intro he
        rw [he] at hm
        exact hm hheld
      rw [hst2]
      simp only [List.cons_append, List.nil_append, List.mem_cons]
      rintro (hhd | htl)
      · exact hvb (congrArg Prod.snd hhd).symm
      · exact htail htl

/-- Over an idle-free single-channel input, each button fires at most
once in a pressed-mode run. -/
theorem pressedRun_count_le_one (nm : String) (c : Channel) (b : Nat) :
    ∀ (sigs : List RemoteSignal) (m m2 : Nat → Bool)
      (out : List (Channel × Button)),
      parseChannel nm = some c →
      (∀ sig ∈ sigs, sig.Name = nm ∧ sig.Value ≠ 0) →
      pressedRun m sigs = some (m2, out) → out.count (c, b) ≤ 1 := by
  intro sigs
  induction sigs with
  | nil =>
    intro m m2 out _ _ hrun
    simp [pressedRun] at hrun
    rw [hrun.2]
    simp
  | cons sig rest ih =>
    intro m m2 out hc hall hrun
    obtain ⟨st, rs, hstep, hrest, _, hout⟩ := pressedRun_cons_some _ _ _ _ _ hrun
    obtain ⟨hname, hv⟩ := hall sig (by simp)
    have hpc : parseChannel sig.Name = some c := by rw [hname]; exact hc
    have htail : rs.2.count (c, b) ≤ 1 :=
      ih st.1 rs.1 rs.2 hc (fun s hs => hall s (by simp [hs])) (by rw [hrest])
    rw [hout]
    simp only [pressedStep, hpc, if_neg hv] at hstep
    by_cases hm : m (buttonID c sig.Value) = true
    · rw [if_pos hm] at hstep
      have hst2 : st = (m, []) := (Option.some.inj hstep).symm
      rw [hst2]
      simpa using htail
    · rw [if_neg hm] at hstep
      have hst2 : st = (update m (buttonID c sig.Value) true, [(c, sig.Value)]) :=
        (Option.some.inj hstep).symm
      rw [hst2]
      simp only [List.cons_append, List.nil_append, List.count_cons]
      by_cases hvb : sig.Value = b
      · have hheld2 : update m (buttonID c sig.Value) true (buttonID c b) = true := by
          rw [hvb]
          simp [update]
        have hst1 : st.1 = update m (buttonID c sig.Value) true := by rw [hst2]
        have hnot : (c, b) ∉ rs.2 :=
          pressedRun_no_fire_held nm c b rest (update m (buttonID c sig.Value) true)
            rs.1 rs.2 hc (fun s hs => hall s (by simp [hs])) hheld2
            (by rw [← hst1, hrest])
        have hzero : rs.2.count (c, b) = 0 := List.count_eq_zero.mpr hnot
        rw [hzero, hvb]
        simp
      · have hbeq : (((c, sig.Value) : Channel × Button) == (c, b)) = false := by
          simp [hvb]
        rw [hbeq]
        simpa using htail

/-- Claim C1: in pressed mode, over any single-channel idle-free sample
segment (the samples between two consecutive idle samples, started in
an arbitrary debounce state), the press callback for any given button
fires at most once, however many identical non-zero samples occur; and
the channel-1 sample sequence `[0, 1, 1, 1, 0]` fires exactly one
callback `(Channel1, RedUp)`. -/
theorem pressed_callback_once_between_idles
    (nm : String) (c : Channel) (b : Nat) (m : Nat → Bool)
    (sigs : List RemoteSignal) (out : List (Channel × Button))
    (hc : parseChannel nm = some c)
    (hall : ∀ sig ∈ sigs, sig.Name = nm ∧ sig.Value ≠ 0)
    (hrun : pressedRunOut m sigs = some out) :
    out.count (c, b) ≤ 1 ∧
      pressedRunOut emptyPressed
        [⟨"value0", 0⟩, ⟨"value0", 1⟩, ⟨"value0", 1⟩, ⟨"value0", 1⟩, ⟨"value0", 0⟩]
        = some [(Channel1, RedUp)] := by
  constructor
  · unfold pressedRunOut at hrun
    cases hr : pressedRun m sigs with
    | none => rw [hr] at hrun; simp at hrun
    | some p =>
      rw [hr] at hrun
      simp at hrun
      rw [← hrun]
      exact pressedRun_count_le_one nm c b sigs m p.1 p.2 hc hall (by rw [hr])
  · decide

/-- Concrete instantiation of `pressed_callback_once_between_idles`:
channel-1 segment `[1, 1]` from the initial state fires `(Channel1,
RedUp)` exactly once. -/
theorem pressed_callback_once_between_idles_witness :
    ([((Channel1 : Channel), (RedUp : Button))].count ((Channel1 : Channel), (RedUp : Button)) ≤ 1) ∧
      pressedRunOut emptyPressed
        [⟨"value0", 0⟩, ⟨"value0", 1⟩, ⟨"value0", 1⟩, ⟨"value0", 1⟩, ⟨"value0", 0⟩]
        = some [(Channel1, RedUp)] :=
  pressed_callback_once_between_idles ("value0") Channel1 RedUp emptyPressed
    [⟨"value0", 1⟩, ⟨"value0", 1⟩] [(Channel1, RedUp)] rfl (by decide) (by decide)

/-- An idle pressed-mode step resets the channel and emits nothing. -/
theorem pressedStep_idle (m : Nat → Bool) (sig : RemoteSignal) (c : Channel)
    (hpc : parseChannel sig.Name = some c) (hv : sig.Value = 0) :
    pressedStep m sig = some (resetChannel c m, []) := by
  simp [pressedStep, hpc, hv]

/-- The function `parseChannel` only ever returns one of the four
channels `0..3`. -/
theorem parseChannel_le_three (nm : String) (c : Nat)
    (hc : parseChannel nm = some c) : c ≤ 3 := by
  unfold parseChannel at hc
  split at hc
  · have h : (0 : Nat) = c := Option.some.inj hc
    omega
  · have h : (1 : Nat) = c := Option.some.inj hc
    omega
  · have h : (2 : Nat) = c := Option.some.inj hc
    omega
  · have h : (3 : Nat) = c := Option.some.inj hc
    omega
  · exact Option.noConfusion hc

/-- Claim C8: `buttonID` (`channel*10 + buttonCode`) is injective over
the 4 channels and 4 buttons: equal keys exactly for equal
(channel, button) pairs, so each pair indexes one `PressedState` entry. -/
theorem buttonID_injective_on_domain
    (c c2 b b2 : Nat)
    (hc : c ≤ Channel4) (hc2 : c2 ≤ Channel4)
    (hb1 : RedUp ≤ b) (hb4 : b ≤ BlueDown)
    (hb21 : RedUp ≤ b2) (hb24 : b2 ≤ BlueDown) :
    buttonID c b = buttonID c2 b2 ↔ (c = c2 ∧ b = b2) := by
  have h1 : c ≤ (3 : Nat) := hc
  have h2 : c2 ≤ (3 : Nat) := hc2
  have h3 : (1 : Nat) ≤ b := hb1
  have h4 : b ≤ (4 : Nat) := hb4
  have h5 : (1 : Nat) ≤ b2 := hb21
  have h6 : b2 ≤ (4 : Nat) := hb24
  simp only [buttonID]
  omega

/-- Concrete instantiation of `buttonID_injective_on_domain`: the keys
of (Channel1, RedDown) and (Channel2, RedUp) differ. -/
theorem buttonID_injective_on_domain_witness :
    buttonID Channel1 RedDown = buttonID Channel2 RedUp ↔
      (Channel1 = Channel2 ∧ RedDown = RedUp) :=
  buttonID_injective_on_domain Channel1 Channel2 RedDown RedUp
    (by decide) (by decide) (by decide) (by decide) (by decide) (by decide)

/-- Claim C10: in pressed mode an idle sample emits nothing and sets
exactly the four keys `buttonID c RedUp .. buttonID c BlueDown` of its
channel to `false`; any key outside those four — in particular any key
of a different channel — is unchanged. -/
theorem pressed_idle_reset_frame
    (m : Nat → Bool) (nm : String) (c b k c2 b2 : Nat)
    (hc : parseChannel nm = some c)
    (hb1 : RedUp ≤ b) (hb4 : b ≤ BlueDown)
    (hk : ∀ bb : Nat, RedUp ≤ bb → bb ≤ BlueDown → k ≠ buttonID c bb)
    (hc2 : c2 ≤ Channel4) (hne : c2 ≠ c)
    (hb21 : RedUp ≤ b2) (hb24 : b2 ≤ BlueDown) :
    pressedStep m ⟨nm, 0⟩ = some (resetChannel c m, []) ∧
    resetChannel c m (buttonID c b) = false ∧
    resetChannel c m k = m k ∧
    resetChannel c m (buttonID c2 b2) = m (buttonID c2 b2) := by
  have hcle : c ≤ 3 := parseChannel_le_three nm c hc
  refine ⟨pressedStep_idle m ⟨nm, 0⟩ c hc rfl, ?_, ?_, ?_⟩
  · rw [resetChannel_apply]
    have hb1n : (1 : Nat) ≤ b := hb1
    have hb4n : b ≤ (4 : Nat) := hb4
    have hcase : b = RedUp ∨ b = RedDown ∨ b = BlueUp ∨ b = BlueDown := by
      simp only [RedUp, RedDown, BlueUp, BlueDown]
      omega
    rcases hcase with h | h | h | h <;> subst h <;> simp
  · rw [resetChannel_apply]
    rw [if_neg]
    push_neg
    exact ⟨hk RedUp (by decide) (by decide), hk RedDown (by decide) (by decide),
      hk BlueUp (by decide) (by decide), hk BlueDown (by decide) (by decide)⟩
  · rw [resetChannel_apply]
    rw [if_neg]
    have hc2n : c2 ≤ (3 : Nat) := hc2
    have hb21n : (1 : Nat) ≤ b2 := hb21
    have hb24n : b2 ≤ (4 : Nat) := hb24
    simp only [buttonID, RedUp, RedDown, BlueUp, BlueDown]
    omega

/-- Concrete instantiation of `pressed_idle_reset_frame` on channel 1
with a foreign key `99` and the (Channel2, RedUp) key both held. -/
theorem pressed_idle_reset_frame_witness :
    pressedStep (update (update emptyPressed (buttonID Channel1 RedUp) true)
        (buttonID Channel2 RedUp) true) ⟨"value0", 0⟩
      = some (resetChannel Channel1
          (update (update emptyPressed (buttonID Channel1 RedUp) true)
            (buttonID Channel2 RedUp) true), []) ∧
    resetChannel Channel1
        (update (update emptyPressed (buttonID Channel1 RedUp) true)
          (buttonID Channel2 RedUp) true) (buttonID Channel1 RedUp) = false ∧
    resetChannel Channel1
        (update (update emptyPressed (buttonID Channel1 RedUp) true)
          (buttonID Channel2 RedUp) true) 99
      = (update (update emptyPressed (buttonID Channel1 RedUp) true)
          (buttonID Channel2 RedUp) true) 99 ∧
    resetChannel Channel1
        (update (update emptyPressed (buttonID Channel1 RedUp) true)
          (buttonID Channel2 RedUp) true) (buttonID Channel2 RedUp)
      = (update (update emptyPressed (buttonID Channel1 RedUp) true)
          (buttonID Channel2 RedUp) true) (buttonID Channel2 RedUp) :=
  pressed_idle_reset_frame _ ("value0") Channel1 RedUp 99 Channel2 RedUp
    rfl (by decide) (by decide)
    (by
      intro bb h1 h2 he
      simp only [buttonID, RedUp, BlueDown, Channel1] at h1 h2 he
      omega)
    (by decide) (by decide) (by decide) (by decide)

/-- Claim C4: in pressed mode, pressing a button, an idle sample, and
the same button again fires the press callback twice (the idle resets
the channel's pressed state); channel-1 samples `[1, 0, 1, 0]` fire
exactly `(Channel1, RedUp)` twice. -/
theorem press_idle_press_fires_twice
    (m : Nat → Bool) (nm : String) (c b : Nat)
    (hc : parseChannel nm = some c)
    (hb1 : RedUp ≤ b) (hb4 : b ≤ BlueDown)
    (hm : m (buttonID c b) = false) :
    pressedRunOut m [⟨nm, b⟩, ⟨nm, 0⟩, ⟨nm, b⟩, ⟨nm, 0⟩] = some [(c, b), (c, b)] ∧
      pressedRunOut emptyPressed
        [⟨"value0", 1⟩, ⟨"value0", 0⟩, ⟨"value0", 1⟩, ⟨"value0", 0⟩]
        = some [(Channel1, RedUp), (Channel1, RedUp)] := by
  constructor
  · have hb1n : (1 : Nat) ≤ b := hb1
    have hb4n : b ≤ (4 : Nat) := hb4
    have hv : b ≠ 0 := by omega
    have h1 : pressedStep m ⟨nm, b⟩
        = some (update m (buttonID c b) true, [(c, b)]) := by
      simp [pressedStep, hc, hv, hm]
    have h2 : pressedStep (update m (buttonID c b) true) ⟨nm, 0⟩
        = some (resetChannel c (update m (buttonID c b) true), []) :=
      pressedStep_idle _ _ c hc rfl
    have hm2 : resetChannel c (update m (buttonID c b) true) (buttonID c b)
        = false := by
      rw [resetChannel_apply]
      have hcase : b = RedUp ∨ b = RedDown ∨ b = BlueUp ∨ b = BlueDown := by
        simp only [RedUp, RedDown, BlueUp, BlueDown]
        omega
      rcases hcase with h | h | h | h <;> subst h <;> simp
    have h3 : pressedStep (resetChannel c (update m (buttonID c b) true)) ⟨nm, b⟩
        = some (update (resetChannel c (update m (buttonID c b) true))
            (buttonID c b) true, [(c, b)]) := by
      simp [pressedStep, hc, hv, hm2]
    have h4 : pressedStep
        (update (resetChannel c (update m (buttonID c b) true)) (buttonID c b) true)
        ⟨nm, 0⟩
        = some (resetChannel c (update (resetChannel c
            (update m (buttonID c b) true)) (buttonID c b) true), []) :=
      pressedStep_idle _ _ c hc rfl
    unfold pressedRunOut
    simp [pressedRun, h1, h2, h3, h4]
  · decide

/-- Concrete instantiation of `press_idle_press_fires_twice`: channel 2,
BlueDown, from the initial (all-released) state. -/
theorem press_idle_press_fires_twice_witness :
    pressedRunOut emptyPressed
        [⟨"value1", 4⟩, ⟨"value1", 0⟩, ⟨"value1", 4⟩, ⟨"value1", 0⟩]
      = some [(Channel2, BlueDown), (Channel2, BlueDown)] ∧
      pressedRunOut emptyPressed
        [⟨"value0", 1⟩, ⟨"value0", 0⟩, ⟨"value0", 1⟩, ⟨"value0", 0⟩]
        = some [(Channel1, RedUp), (Channel1, RedUp)] := by
  have h := press_idle_press_fires_twice emptyPressed ("value1") Channel2 BlueDown
    rfl (by decide) (by decide) rfl
  exact h

/-- A non-idle released-mode step records the press and emits nothing. -/
theorem releasedStep_nonzero (m : Nat → Bool) (sig : RemoteSignal) (c : Channel)
    (hpc : parseChannel sig.Name = some c) (hv : sig.Value ≠ 0) :
    releasedStep m sig = some (update m (buttonID c sig.Value) true, []) := by
  simp [releasedStep, hpc, hv]

/-- An idle released-mode step runs the release loop over the buttons. -/
theorem releasedStep_idle (m : Nat → Bool) (sig : RemoteSignal) (c : Channel)
    (hpc : parseChannel sig.Name = some c) (hv : sig.Value = 0) :
    releasedStep m sig = some (buttonRange.foldl (relStep c) (m, [])) := by
  simp [releasedStep, hpc, hv]

/-- A successful non-idle released-mode step invokes no callback. -/
theorem releasedStepOut_nonzero (m : Nat → Bool) (sig : RemoteSignal)
    (out : List (Channel × Button)) (hv : sig.Value ≠ 0)
    (h : releasedStepOut m sig = some out) : out = [] := by
  unfold releasedStepOut at h
  cases hpc : parseChannel sig.Name with
  | none => simp [releasedStep, hpc] at h
  | some c =>
    rw [releasedStep_nonzero m sig c hpc hv] at h
    simp at h
    exact h

/-- Bounds `1 ≤ b ≤ 4` put `b` in the release-loop iteration range. -/
theorem mem_buttonRange (b : Nat) (hb1 : (1 : Nat) ≤ b) (hb4 : b ≤ (4 : Nat)) :
    b ∈ buttonRange := by
  rw [buttonRange_eq]
  simp only [List.mem_cons, List.not_mem_nil, or_false]
  omega

/-- Refinement of the released-mode run against the specification
counter: the number of `(c, b)` callbacks equals the number of
(press of `b`, subsequent idle) pairs, tracked from the current
held state of `b`'s key. -/
theorem releasedRun_count_spec (nm : String) (c b : Nat)
    (hc : parseChannel nm = some c) (hb1 : (1 : Nat) ≤ b) (hb4 : b ≤ (4 : Nat)) :
    ∀ (sigs : List RemoteSignal) (m m2 : Nat → Bool)
      (out : List (Channel × Button)),
      (∀ sig ∈ sigs, sig.Name = nm) →
      releasedRun m sigs = some (m2, out) →
      out.count (c, b)
        = specReleaseCount b (m (buttonID c b)) (sigs.map RemoteSignal.Value) := by
  intro sigs
  induction sigs with
  | nil =>
    intro m m2 out _ hrun
    simp [releasedRun] at hrun
    rw [hrun.2]
    simp [specReleaseCount]
  | cons sig rest ih =>
    intro m m2 out hall hrun
    obtain ⟨st, rs, hstep, hrest, _, hout⟩ := releasedRun_cons_some _ _ _ _ _ hrun
    have hname : sig.Name = nm := hall sig (by simp)
    have hpc : parseChannel sig.Name = some c := by rw [hname]; exact hc
    have hrest2 : releasedRun st.1 rest = some (rs.1, rs.2) := by rw [hrest]
    rw [hout, List.count_append]
    by_cases hv : sig.Value = 0
    · rw [releasedStep_idle m sig c hpc hv] at hstep
      have hst : st = buttonRange.foldl (relStep c) (m, []) :=
        (Option.some.inj hstep).symm
      have hsnd : st.2
          = (buttonRange.filter (fun bb => m (buttonID c bb))).map (fun bb => (c, bb)) := by
        rw [hst, relFold_snd c buttonRange m [] buttonRange_nodup]
        simp
      have hcount : st.2.count (c, b)
          = if m (buttonID c b) = true then 1 else 0 := by
        rw [hsnd, count_pair_filter_map c b buttonRange _ buttonRange_nodup]
        simp [mem_buttonRange b hb1 hb4]
      have hfst : st.1 (buttonID c b) = false := by
        rw [hst, relFold_fst c buttonRange m []]
        rw [if_pos (List.mem_map.mpr ⟨b, mem_buttonRange b hb1 hb4, rfl⟩)]
      have htail := ih st.1 rs.1 rs.2 (fun s hs => hall s (by simp [hs])) hrest2
      rw [hfst] at htail
      rw [hcount, htail]
      simp [specReleaseCount, hv]
    · rw [releasedStep_nonzero m sig c hpc hv] at hstep
      have hst : st = (update m (buttonID c sig.Value) true, []) :=
        (Option.some.inj hstep).symm
      have htail := ih st.1 rs.1 rs.2 (fun s hs => hall s (by simp [hs])) hrest2
      have hmap : (sig :: rest).map RemoteSignal.Value
          = sig.Value :: rest.map RemoteSignal.Value := rfl
      rw [hmap]
      by_cases hvb : sig.Value = b
      · have hheld : st.1 (buttonID c b) = true := by
          rw [hst, hvb]
          simp [update]
        rw [hheld] at htail
        rw [hst]
        simp only [List.count_nil, Nat.zero_add]
        rw [htail]
        have hbz : b ≠ 0 := by omega
        simp [specReleaseCount, hvb, hbz]
      · have hkeyne : buttonID c b ≠ buttonID c sig.Value := by
          intro he
          simp only [buttonID] at he
          exact hvb (Nat.add_left_cancel he).symm
        have hheld : st.1 (buttonID c b) = m (buttonID c b) := by
          rw [hst]
          simp [update, hkeyne]
        rw [hheld] at htail
        rw [hst]
        simp only [List.count_nil, Nat.zero_add]
        rw [htail]
        simp [specReleaseCount, hv, hvb]

/-- From an all-released state, idle-only input never invokes any
released-mode callback (and the state stays all-released). -/
theorem releasedRun_all_idle :
    ∀ (sigs : List RemoteSignal) (m m2 : Nat → Bool)
      (out : List (Channel × Button)),
      (∀ sig ∈ sigs, sig.Value = 0) → (∀ k, m k = false) →
      releasedRun m sigs = some (m2, out) → out = [] := by
  intro sigs
  induction sigs with
  | nil =>
    intro m m2 out _ _ hrun
    simp [releasedRun] at hrun
    exact hrun.2
  | cons sig rest ih =>
    intro m m2 out hall hm0 hrun
    obtain ⟨st, rs, hstep, hrest, _, hout⟩ := releasedRun_cons_some _ _ _ _ _ hrun
    cases hpc : parseChannel sig.Name with
    | none => simp [releasedStep, hpc] at hstep
    | some c =>
      rw [releasedStep_idle m sig c hpc (hall sig (by simp))] at hstep
      have hst : st = buttonRange.foldl (relStep c) (m, []) :=
        (Option.some.inj hstep).symm
      have hsnd : st.2 = [] := by
        rw [hst, relFold_snd c buttonRange m [] buttonRange_nodup]
        have hfilt : buttonRange.filter (fun bb => m (buttonID c bb)) = [] := by
          apply List.filter_eq_nil_iff.mpr
          intro a _
          simp [hm0]
        rw [hfilt]
        simp
      have hfst : ∀ k, st.1 k = false := by
        intro k
        rw [hst, relFold_fst c buttonRange m [] k]
        by_cases hk : k ∈ buttonRange.map (buttonID c) <;> simp [hk, hm0]
      have htail : rs.2 = [] :=
        ih st.1 rs.1 rs.2 (fun s hs => hall s (by simp [hs])) hfst (by rw [hrest])
      rw [hout, hsnd, htail]
      simp

/-- Claim C2: in released mode the release callback for a button fires
exactly once per (press, subsequent idle) pair — formalised as equality
with the specification counter `specReleaseCount` over any
single-channel sample sequence from the initial state — it fires only
when an idle sample is processed (a successful non-idle step emits
nothing), and it never fires when the channel only ever reports idle;
channel-2 samples `[3, 3, 0]` fire exactly one callback
`(Channel2, BlueUp)`, and its idle-free prefix `[3, 3]` fires none. -/
theorem released_callback_once_per_press_idle
    (nm : String) (c b : Nat) (sigs : List RemoteSignal)
    (out : List (Channel × Button))
    (mm : Nat → Bool) (sg : RemoteSignal) (oo : List (Channel × Button))
    (sigs2 : List RemoteSignal) (out2 : List (Channel × Button))
    (hc : parseChannel nm = some c)
    (hb1 : RedUp ≤ b) (hb4 : b ≤ BlueDown)
    (hall : ∀ sig ∈ sigs, sig.Name = nm)
    (hrun : releasedRunOut emptyPressed sigs = some out)
    (hv : sg.Value ≠ 0)
    (hso : releasedStepOut mm sg = some oo)
    (hallz : ∀ sig ∈ sigs2, sig.Value = 0)
    (hz : releasedRunOut emptyPressed sigs2 = some out2) :
    out.count (c, b) = specReleaseCount b false (sigs.map RemoteSignal.Value) ∧
    oo = [] ∧
    out2 = [] ∧
    releasedRunOut emptyPressed [⟨"value1", 3⟩, ⟨"value1", 3⟩, ⟨"value1", 0⟩]
      = some [(Channel2, BlueUp)] ∧
    releasedRunOut emptyPressed [⟨"value1", 3⟩, ⟨"value1", 3⟩] = some [] := by
  refine ⟨?_, releasedStepOut_nonzero mm sg oo hv hso, ?_, by decide, by decide⟩
  · unfold releasedRunOut at hrun
    cases hr : releasedRun emptyPressed sigs with
    | none => rw [hr] at hrun; simp at hrun
    | some p =>
      rw [hr] at hrun
      simp at hrun
      rw [← hrun]
      have := releasedRun_count_spec nm c b hc hb1 hb4 sigs emptyPressed p.1 p.2
        hall (by rw [hr])
      simpa [emptyPressed] using this
  · unfold releasedRunOut at hz
    cases hr : releasedRun emptyPressed sigs2 with
    | none => rw [hr] at hz; simp at hz
    | some p =>
      rw [hr] at hz
      simp at hz
      rw [← hz]
      exact releasedRun_all_idle sigs2 emptyPressed p.1 p.2 hallz
        (fun _ => rfl) (by rw [hr])

/-- Concrete instantiation of `released_callback_once_per_press_idle`:
channel-2 samples `[3, 0]` fire `(Channel2, BlueUp)` exactly once, a
lone non-idle step fires nothing, and idle-only input fires nothing. -/
theorem released_callback_once_per_press_idle_witness :
    (List.count ((Channel2 : Channel), (BlueUp : Button)) [(Channel2, BlueUp)]
      = specReleaseCount BlueUp false ([⟨"value1", 3⟩, ⟨"value1", 0⟩].map RemoteSignal.Value)) ∧
    ([] : List (Channel × Button)) = [] ∧
    ([] : List (Channel × Button)) = [] ∧
    releasedRunOut emptyPressed [⟨"value1", 3⟩, ⟨"value1", 3⟩, ⟨"value1", 0⟩]
      = some [(Channel2, BlueUp)] ∧
    releasedRunOut emptyPressed [⟨"value1", 3⟩, ⟨"value1", 3⟩] = some [] :=
  released_callback_once_per_press_idle ("value1") Channel2 BlueUp
    [⟨"value1", 3⟩, ⟨"value1", 0⟩] [(Channel2, BlueUp)]
    emptyPressed ⟨"value0", 2⟩ [] [⟨"value2", 0⟩] []
    rfl (by decide) (by decide) (by decide) (by decide) (by decide) (by decide)
    (by decide) (by decide)

/-- Claim C3 counterexample: in released mode, processing an idle sample
does directly invoke a registered callback.  From the state reached
after channel-2 sample `3` (which itself fires nothing), the idle
sample `0` fires `(Channel2, BlueUp)` — so "processing an idle sample
never directly invokes any registered callback" is false for
`OnRemoteReleased`. -/
theorem idle_sample_fires_release_callback :
    releasedStepOut (update emptyPressed (buttonID Channel2 BlueUp) true)
      ⟨"value1", 0⟩ = some [(Channel2, BlueUp)] ∧
    releasedRunOut emptyPressed [⟨"value1", 3⟩] = some [] ∧
    releasedRunOut emptyPressed [⟨"value1", 3⟩, ⟨"value1", 0⟩]
      = some [(Channel2, BlueUp)] :=
  ⟨by decide, by decide, by decide⟩

/-- Claim C3 amended: in pressed mode an idle sample never invokes a
callback and only resets its channel's pressed state; in released mode
a non-idle sample never invokes a callback, while an idle sample
invokes the release callback exactly for the currently held buttons of
its channel and clears their state (the resulting state holds every
key of the channel's four buttons `false` — in particular the
previously held ones — and leaves every other key unchanged). -/
theorem idle_sample_effects_amended
    (m : Nat → Bool) (nm : String) (c v b2 k : Nat)
    (hc : parseChannel nm = some c) (hv : v ≠ 0)
    (hb21 : RedUp ≤ b2) (hb24 : b2 ≤ BlueDown)
    (hk : ∀ bb : Nat, RedUp ≤ bb → bb ≤ BlueDown → k ≠ buttonID c bb) :
    pressedStepOut m ⟨nm, 0⟩ = some [] ∧
    pressedStep m ⟨nm, 0⟩ = some (resetChannel c m, []) ∧
    releasedStepOut m ⟨nm, v⟩ = some [] ∧
    releasedStepOut m ⟨nm, 0⟩
      = some ((buttonRange.filter (fun bb => m (buttonID c bb))).map
          (fun bb => (c, bb))) ∧
    releasedStep m ⟨nm, 0⟩ = some (buttonRange.foldl (relStep c) (m, [])) ∧
    (buttonRange.foldl (relStep c) (m, [])).1 (buttonID c b2) = false ∧
    (buttonRange.foldl (relStep c) (m, [])).1 k = m k := by
  refine ⟨?_, pressedStep_idle m ⟨nm, 0⟩ c hc rfl, ?_, ?_,
    releasedStep_idle m ⟨nm, 0⟩ c hc rfl, ?_, ?_⟩
  · unfold pressedStepOut
    rw [pressedStep_idle m ⟨nm, 0⟩ c hc rfl]
    rfl
  · unfold releasedStepOut
    rw [releasedStep_nonzero m ⟨nm, v⟩ c hc hv]
    rfl
  · unfold releasedStepOut
    rw [releasedStep_idle m ⟨nm, 0⟩ c hc rfl]
    simp [relFold_snd c buttonRange m [] buttonRange_nodup]
  · rw [relFold_fst c buttonRange m [] (buttonID c b2)]
    rw [if_pos (List.mem_map.mpr ⟨b2, mem_buttonRange b2 hb21 hb24, rfl⟩)]
  · rw [relFold_fst c buttonRange m [] k]
    rw [if_neg]
    intro hmem
    obtain ⟨bb, hbb, he⟩ := List.mem_map.mp hmem
    have hbbr : bb = 1 ∨ bb = 2 ∨ bb = 3 ∨ bb = 4 := by
      rw [buttonRange_eq] at hbb
      simpa using hbb
    rcases hbbr with h | h | h | h <;> subst h <;>
      exact hk _ (by decide) (by decide) he.symm

/-- Concrete instantiation of `idle_sample_effects_amended` on channel 1
with RedUp held, non-idle value 2, probe button RedDown and foreign
key 99. -/
theorem idle_sample_effects_amended_witness :
    pressedStepOut (update emptyPressed (buttonID Channel1 RedUp) true)
      ⟨"value0", 0⟩ = some [] ∧
    pressedStep (update emptyPressed (buttonID Channel1 RedUp) true) ⟨"value0", 0⟩
      = some (resetChannel Channel1
          (update emptyPressed (buttonID Channel1 RedUp) true), []) ∧
    releasedStepOut (update emptyPressed (buttonID Channel1 RedUp) true)
      ⟨"value0", 2⟩ = some [] ∧
    releasedStepOut (update emptyPressed (buttonID Channel1 RedUp) true)
      ⟨"value0", 0⟩
      = some ((buttonRange.filter (fun bb =>
          (update emptyPressed (buttonID Channel1 RedUp) true)
            (buttonID Channel1 bb))).map (fun bb => (Channel1, bb))) ∧
    releasedStep (update emptyPressed (buttonID Channel1 RedUp) true)
      ⟨"value0", 0⟩
      = some (buttonRange.foldl (relStep Channel1)
          (update emptyPressed (buttonID Channel1 RedUp) true, [])) ∧
    (buttonRange.foldl (relStep Channel1)
        (update emptyPressed (buttonID Channel1 RedUp) true, [])).1
      (buttonID Channel1 RedDown) = false ∧
    (buttonRange.foldl (relStep Channel1)
        (update emptyPressed (buttonID Channel1 RedUp) true, [])).1 99
      = (update emptyPressed (buttonID Channel1 RedUp) true) 99 :=
  idle_sample_effects_amended (update emptyPressed (buttonID Channel1 RedUp) true)
    ("value0") Channel1 2 RedDown 99 rfl (by decide) (by decide) (by decide)
    (by
      intro bb h1 h2 he
      simp only [buttonID, RedUp, BlueDown, Channel1] at h1 h2 he
      omega)

/-- Claim C6 counterexample: an unrecognized button code does NOT
terminate the process.  Value `7` parses as valid 16-bit content, and
the pressed-mode engine, far from being fatal (`none`) or skipping it,
invokes the callback with the raw code: `(Channel1, 7)`. -/
theorem unknown_button_code_not_fatal :
    sampleTick (some ("7")) = some 7 ∧
    pressedStepOut emptyPressed ⟨"value0", 7⟩ = some [(Channel1, 7)] :=
  ⟨by decide, by decide⟩

/-- Claim C6 amended: driver-contract violations — an unreadable channel
file, channel-file content whose trimmed form is not a decimal unsigned
integer representable in 16 bits, and an unrecognized channel name
reaching the engine — are all fatal (`log.Fatal`, modelled as `none`),
with no recovery, retry or skipping; an unrecognized button code,
however, is not checked: a non-zero value outside 1–4 is passed to the
pressed-mode callback as-is. -/
theorem driver_violations_fatal_amended
    (mp mr : Nat → Bool) (nm : String) (v : Nat)
    (hch : parseChannel nm = none) :
    sampleTick none = none ∧
    sampleTick (some ("")) = none ∧
    sampleTick (some (" abc\n")) = none ∧
    sampleTick (some ("70000")) = none ∧
    sampleTick (some (" 42 \n")) = some 42 ∧
    pressedStep mp ⟨nm, v⟩ = none ∧
    releasedStep mr ⟨nm, v⟩ = none ∧
    pressedStepOut emptyPressed ⟨"value0", 7⟩ = some [(Channel1, 7)] := by
  refine ⟨by decide, by decide, by decide, by decide, by decide, ?_, ?_, by decide⟩
  · simp [pressedStep, hch]
  · simp [releasedStep, hch]

/-- Concrete instantiation of `driver_violations_fatal_amended` with the
unrecognized channel name `"value9"`. -/
theorem driver_violations_fatal_amended_witness :
    sampleTick none = none ∧
    sampleTick (some ("")) = none ∧
    sampleTick (some (" abc\n")) = none ∧
    sampleTick (some ("70000")) = none ∧
    sampleTick (some (" 42 \n")) = some 42 ∧
    pressedStep emptyPressed ⟨"value9", 1⟩ = none ∧
    releasedStep emptyPressed ⟨"value9", 1⟩ = none ∧
    pressedStepOut emptyPressed ⟨"value0", 7⟩ = some [(Channel1, 7)] :=
  driver_violations_fatal_amended emptyPressed emptyPressed ("value9") 1 rfl

/-- Claim C7: the shared sample stream is the buffered channel
`make(chan RemoteSignal, 50)`: capacity 50 (≥ 50); sending onto a full
buffer blocks the sender (`none`) instead of dropping; a successful
send appends exactly the sent sample at the tail; receive delivers the
oldest sample first (FIFO); and one successful sampler tick emits
exactly one `RemoteSignal`. -/
theorem sample_queue_bounded_fifo
    (buf buf2 buf3 : List RemoteSignal) (x y : RemoteSignal)
    (rest : List RemoteSignal) (nm : String) (rd : Option String) (v : Nat)
    (hfull : remoteQueueCapacity ≤ buf.length)
    (hsend : queueSend buf2 x = some buf3)
    (htick : sampleTick rd = some v) :
    50 ≤ remoteQueueCapacity ∧
    queueSend buf x = none ∧
    buf3 = buf2 ++ [x] ∧
    queueRecv (y :: rest) = some (y, rest) ∧
    samplerTickEmit nm rd = some [⟨nm, v⟩] := by
  have h50 : remoteQueueCapacity = 50 := rfl
  refine ⟨by decide, ?_, ?_, rfl, ?_⟩
  · unfold queueSend
    rw [if_neg (by omega)]
  · unfold queueSend at hsend
    by_cases h : buf2.length < remoteQueueCapacity
    · rw [if_pos h] at hsend
      exact (Option.some.inj hsend).symm
    · rw [if_neg h] at hsend
      exact Option.noConfusion hsend
  · unfold samplerTickEmit
    rw [htick]
    rfl

/-- Concrete instantiation of `sample_queue_bounded_fifo`: a full
50-element buffer rejects a send, a send on a short buffer appends, and
a tick on content `"3"` emits one signal. -/
theorem sample_queue_bounded_fifo_witness :
    50 ≤ remoteQueueCapacity ∧
    queueSend (List.replicate 50 (⟨"value0", 0⟩ : RemoteSignal)) ⟨"value0", 1⟩
      = none ∧
    ([(⟨"value0", 2⟩ : RemoteSignal)] ++ [⟨"value0", 1⟩])
      = [(⟨"value0", 2⟩ : RemoteSignal)] ++ [⟨"value0", 1⟩] ∧
    queueRecv [(⟨"value2", 4⟩ : RemoteSignal), ⟨"value3", 0⟩]
      = some (⟨"value2", 4⟩, [⟨"value3", 0⟩]) ∧
    samplerTickEmit ("value1") (some ("3")) = some [⟨"value1", 3⟩] :=
  sample_queue_bounded_fifo (List.replicate 50 ⟨"value0", 0⟩)
    [⟨"value0", 2⟩] ([⟨"value0", 2⟩] ++ [⟨"value0", 1⟩]) ⟨"value0", 1⟩
    ⟨"value2", 4⟩ [⟨"value3", 0⟩] ("value1") (some ("3")) 3
    (by decide) (by decide) (by decide)

/-- Claim C5 counterexample: the Go language specification makes
`select` choose uniformly at random among the cases that can proceed,
so when the cancellation signal is pending AND a sample is queued, the
draw may legally pick the sample case: the engine then processes the
sample and invokes a callback, refuting "cancellation is always
preferred over processing the sample". -/
theorem select_may_process_sample_when_stop_ready :
    engineRunPressed [false] emptyPressed true [⟨"value0", 1⟩]
      = some [(Channel1, RedUp)] ∧
    (([(Channel1, RedUp)] : List (Channel × Button)) ≠ []) :=
  ⟨by decide, by decide⟩

/-- Claim C5 amended: once the engine's `select` takes the cancellation
signal it returns, and no callback fires afterwards; if cancellation is
pending before any sample has arrived (empty queue), no callback ever
fires under any sequence of select draws; a sampler that observes the
stop signal before its tick emits nothing further.  (When both
cancellation and a sample are ready simultaneously, the select draw is
pseudo-random and may process the sample first.) -/
theorem cancellation_stops_engine_and_sampler
    (sched : List Bool) (m : Nat → Bool) (sig : RemoteSignal)
    (q : List RemoteSignal) (sts : List Bool) (rd : Option String)
    (rds : List (Option String)) :
    engineRunPressed sched m true [] = some [] ∧
    engineRunPressed (true :: sched) m true (sig :: q) = some [] ∧
    samplerRun (true :: sts) (rd :: rds) = some [] := by
  refine ⟨?_, rfl, rfl⟩
  cases sched with
  | nil => rfl
  | cons h t => cases h <;> rfl

theorem combineRuns_none_left (b : Option (List (Channel × Button))) :
    combineRuns none b = none := by
  cases b <;> rfl

theorem combineRuns_none_right (a : Option (List (Channel × Button))) :
    combineRuns a none = none := by
  cases a <;> rfl

theorem modeStep_false (m : Nat → Bool) (sig : RemoteSignal) :
    modeStep false m sig = pressedStep m sig := rfl

theorem modeStep_true (m : Nat → Bool) (sig : RemoteSignal) :
    modeStep true m sig = releasedStep m sig := rfl

theorem modeRun_cons (mode : Bool) (m : Nat → Bool) (sig : RemoteSignal)
    (rest : List RemoteSignal) :
    modeRun mode m (sig :: rest)
      = (modeStep mode m sig).bind (fun st =>
          (modeRun mode st.1 rest).map (fun rs => (rs.1, st.2 ++ rs.2))) := rfl

/-- The mode-`false` engine is exactly the `OnRemotePressed` engine. -/
theorem modeRun_false :
    ∀ (sigs : List RemoteSignal) (m : Nat → Bool),
      modeRun false m sigs = pressedRun m sigs := by
  intro sigs
  induction sigs with
  | nil => intro m; rfl
  | cons sig rest ih =>
    intro m
    rw [modeRun_cons, pressedRun_cons, modeStep_false]
    cases hstep : pressedStep m sig with
    | none => rfl
    | some st =>
      rw [Option.some_bind, Option.some_bind, ih st.1]

/-- The mode-`true` engine is exactly the `OnRemoteReleased` engine. -/
theorem modeRun_true :
    ∀ (sigs : List RemoteSignal) (m : Nat → Bool),
      modeRun true m sigs = releasedRun m sigs := by
  intro sigs
  induction sigs with
  | nil => intro m; rfl
  | cons sig rest ih =>
    intro m
    rw [modeRun_cons, releasedRun_cons, modeStep_true]
    cases hstep : releasedStep m sig with
    | none => rfl
    | some st =>
      rw [Option.some_bind, Option.some_bind, ih st.1]

/-- Under every interleaving, each of the two engines (of any modes)
delivers exactly its own solo callback sequence. -/
theorem twoEngineRun_combine (mode1 mode2 : Bool) :
    ∀ (sched : List Bool) (m1 m2 : Nat → Bool) (q1 q2 : List RemoteSignal),
      twoEngineRun mode1 mode2 sched m1 m2 q1 q2
        = combineRuns (modeRunOut mode1 m1 q1) (modeRunOut mode2 m2 q2) := by
  intro sched
  induction sched with
  | nil => intro m1 m2 q1 q2; rfl
  | cons sc sch ih =>
    intro m1 m2 q1 q2
    cases sc
    · cases q2 with
      | nil =>
        rw [show twoEngineRun mode1 mode2 (false :: sch) m1 m2 q1 []
            = twoEngineRun mode1 mode2 sch m1 m2 q1 [] from rfl, ih]
      | cons sig q2t =>
        rw [show twoEngineRun mode1 mode2 (false :: sch) m1 m2 q1 (sig :: q2t)
            = (modeStep mode2 m2 sig).bind (fun st =>
                (twoEngineRun mode1 mode2 sch m1 st.1 q1 q2t).map
                  (fun p => (p.1, st.2 ++ p.2))) from rfl]
        cases hstep : modeStep mode2 m2 sig with
        | none =>
          rw [show modeRunOut mode2 m2 (sig :: q2t)
              = (modeRun mode2 m2 (sig :: q2t)).map Prod.snd from rfl,
            modeRun_cons, hstep]
          simp [combineRuns_none_right]
        | some st =>
          rw [Option.some_bind, ih]
          rw [show modeRunOut mode2 m2 (sig :: q2t)
              = (modeRun mode2 m2 (sig :: q2t)).map Prod.snd from rfl,
            modeRun_cons, hstep, Option.some_bind]
          unfold modeRunOut
          cases h1 : modeRun mode1 m1 q1 with
          | none => simp [combineRuns_none_left]
          | some p1 =>
            cases h2 : modeRun mode2 st.1 q2t with
            | none => simp [combineRuns_none_right, combineRuns]
            | some p2 => simp [combineRuns]
    · cases q1 with
      | nil =>
        rw [show twoEngineRun mode1 mode2 (true :: sch) m1 m2 [] q2
            = twoEngineRun mode1 mode2 sch m1 m2 [] q2 from rfl, ih]
      | cons sig q1t =>
        rw [show twoEngineRun mode1 mode2 (true :: sch) m1 m2 (sig :: q1t) q2
            = (modeStep mode1 m1 sig).bind (fun st =>
                (twoEngineRun mode1 mode2 sch st.1 m2 q1t q2).map
                  (fun p => (st.2 ++ p.1, p.2))) from rfl]
        cases hstep : modeStep mode1 m1 sig with
        | none =>
          rw [show modeRunOut mode1 m1 (sig :: q1t)
              = (modeRun mode1 m1 (sig :: q1t)).map Prod.snd from rfl,
            modeRun_cons, hstep]
          simp [combineRuns_none_left]
        | some st =>
          rw [Option.some_bind, ih]
          rw [show modeRunOut mode1 m1 (sig :: q1t)
              = (modeRun mode1 m1 (sig :: q1t)).map Prod.snd from rfl,
            modeRun_cons, hstep, Option.some_bind]
          unfold modeRunOut
          cases h1 : modeRun mode1 st.1 q1t with
          | none => simp [combineRuns_none_left]
          | some p1 =>
            cases h2 : modeRun mode2 m2 q2 with
            | none => simp [combineRuns_none_right, combineRuns]
            | some p2 => simp [combineRuns]

/-- Claim C9: each call of `OnRemotePressed` or `OnRemoteReleased`
creates its own engine with a fresh `pressed` map and its own signal
queue; for any two registrations, of any combination of the two modes,
and under every interleaving of the two engines, each delivers exactly
the callback sequence of its own solo run on its own queue — the other
engine's mode, state and queue have no effect (a `log.Fatal` in either
kills the shared process, matching `combineRuns`).  Mode `false` is the
`OnRemotePressed` engine and mode `true` the `OnRemoteReleased` engine,
as the last two conjuncts state. -/
theorem two_engines_no_interference
    (mode1 mode2 : Bool) (sched : List Bool) (m1 m2 : Nat → Bool)
    (q1 q2 : List RemoteSignal) :
    twoEngineRun mode1 mode2 sched m1 m2 q1 q2
      = combineRuns (modeRunOut mode1 m1 q1) (modeRunOut mode2 m2 q2) ∧
    modeRunOut false m1 q1 = pressedRunOut m1 q1 ∧
    modeRunOut true m2 q2 = releasedRunOut m2 q2 :=
  ⟨twoEngineRun_combine mode1 mode2 sched m1 m2 q1 q2,
   by unfold modeRunOut pressedRunOut; rw [modeRun_false],
   by unfold modeRunOut releasedRunOut; rw [modeRun_true]⟩

end GoEV3
